import Mathlib

/-!
Verification of the MNIST dataset op registration fragment
(src/tensorflow_io/mnist/ops/dataset_ops.cc) and of the record decoder
specified for it. The registration layer below is a shallow embedding of
the REGISTER_OP builder chain used in the source file; the decoder and
iterator in the second half are modelled from the specification, because
their implementation is not part of the given source.
-/

namespace MnistOps

/-- A dimension in shape inference: `some n` is a known extent, `none` is
the unknown dimension produced by `InferenceContext::UnknownDim()`. -/
abbrev Dim := Option Nat

/-- A fully ranked shape: a list of dimensions, whose length is the rank.
This is what `InferenceContext::MakeShape` builds. -/
structure Shape where
  dims : List Dim
deriving DecidableEq, Repr

/-- Rank of a shape. -/
def Shape.rank (s : Shape) : Nat := s.dims.length

/-- Shape inference context: the shapes of the op inputs, and the output
shapes set so far (`none` where no shape has been set). -/
structure InferenceContext where
  inputs : List Shape
  outputs : Nat → Option Shape

/-- Embedding of `InferenceContext::UnknownDim()`. -/
def InferenceContext.UnknownDim (_ : InferenceContext) : Dim := none

/-- Embedding of `InferenceContext::MakeShape({...})`. -/
def InferenceContext.MakeShape (_ : InferenceContext) (ds : List Dim) : Shape :=
  ⟨ds⟩

/-- Embedding of `InferenceContext::set_output(i, s)`. -/
def InferenceContext.set_output (c : InferenceContext) (i : Nat) (s : Shape) :
    InferenceContext :=
  { c with outputs := fun j => if j = i then some s else c.outputs j }

/-- Embedding of `tensorflow::Status` as far as the fragment uses it. -/
inductive Status
| OK
| Error (msg : String)
deriving DecidableEq, Repr

/-- An input or output argument declaration of an op, as parsed from a
string such as "filenames: string". -/
structure OpArgDef where
  name : String
  type : String
deriving DecidableEq, Repr

/-- Split a character list at the first occurrence of a colon followed by
a space, returning the parts before and after the separator. -/
def splitArg (acc : List Char) : List Char → Option (List Char × List Char)
  | ':' :: ' ' :: rest => some (acc.reverse, rest)
  | ch :: rest => splitArg (ch :: acc) rest
  | [] => none

/-- Parse an argument declaration string of the form "name: type". -/
def parseArgSpec (s : String) : OpArgDef :=
  match splitArg [] s.data with
  | some (n, t) => ⟨String.mk n, String.mk t⟩
  | none => ⟨s, ""⟩

/-- An operator definition as it ends up in the operator catalog:
name, input signature, output signature, statefulness flag, and the
shape inference function. -/
structure OpDef where
  name : String
  input_args : List OpArgDef
  output_args : List OpArgDef
  is_stateful : Bool
  shape_fn : InferenceContext → InferenceContext × Status

/-- Embedding of the `REGISTER_OP("name")` builder start: an op with the
given name and everything else at its defaults. -/
def REGISTER_OP (n : String) : OpDef :=
  { name := n
    input_args := []
    output_args := []
    is_stateful := false
    shape_fn := fun c => (c, Status.OK) }

/-- Embedding of the `.Input("...")` builder call. -/
def OpDef.Input (op : OpDef) (spec : String) : OpDef :=
  { op with input_args := op.input_args ++ [parseArgSpec spec] }

/-- Embedding of the `.Output("...")` builder call. -/
def OpDef.Output (op : OpDef) (spec : String) : OpDef :=
  { op with output_args := op.output_args ++ [parseArgSpec spec] }

/-- Embedding of the `.SetIsStateful()` builder call. -/
def OpDef.SetIsStateful (op : OpDef) : OpDef :=
  { op with is_stateful := true }

/-- Embedding of the `.SetShapeFn(...)` builder call. -/
def OpDef.SetShapeFn (op : OpDef) (f : InferenceContext → InferenceContext × Status) :
    OpDef :=
  { op with shape_fn := f }

/-- The shape lambda registered for "MNISTImageDataset":
`c->set_output(0, c->MakeShape({c->UnknownDim(), c->UnknownDim()})); return Status::OK();`. -/
def mnistImageShapeFn (c : InferenceContext) : InferenceContext × Status :=
  (c.set_output 0 (c.MakeShape [c.UnknownDim, c.UnknownDim]), Status.OK)

/-- The shape lambda registered for "MNISTLabelDataset":
`c->set_output(0, c->MakeShape({})); return Status::OK();`. -/
def mnistLabelShapeFn (c : InferenceContext) : InferenceContext × Status :=
  (c.set_output 0 (c.MakeShape []), Status.OK)

/-- The op registered by the first REGISTER_OP chain in the source file. -/
def MNISTImageDataset : OpDef :=
  ((((REGISTER_OP "MNISTImageDataset").Input
      "filenames: string").Input
      "compression_type: string").Output
      "handle: variant").SetIsStateful.SetShapeFn mnistImageShapeFn

/-- The op registered by the second REGISTER_OP chain in the source file. -/
def MNISTLabelDataset : OpDef :=
  ((((REGISTER_OP "MNISTLabelDataset").Input
      "filenames: string").Input
      "compression_type: string").Output
      "handle: variant").SetIsStateful.SetShapeFn mnistLabelShapeFn

/-- The operator catalog entries created by this source file, in
registration order. -/
def registeredOps : List OpDef := [MNISTImageDataset, MNISTLabelDataset]

end MnistOps

namespace MnistDecoder

/-- Modelled from the spec: the error taxonomy of section 7 — the four
distinct, inspectable error values of the decoder and iterator. The
FileDecoder and RecordIterator implementations are not part of the given
source file, so everything in this namespace is modelled from the
specification text. -/
inductive MNISTError
| FileNotFound
| DecompressionError
| MalformedHeader
| TruncatedRecord
deriving DecidableEq, Repr

/-- Modelled from the spec: the validated DatasetHeader of section 3 —
magic number selects image or label form; record count for both; row and
column counts for images only. -/
inductive MNISTHeader
| image (recordCount rows cols : Nat)
| label (recordCount : Nat)
deriving DecidableEq, Repr

/-- Record count declared by a header. -/
def MNISTHeader.recordCount : MNISTHeader → Nat
  | .image c _ _ => c
  | .label c => c

/-- Modelled from the spec: the number of raw bytes of one record —
rows times cols for images, one byte for labels (section 4.2). -/
def MNISTHeader.recordSize : MNISTHeader → Nat
  | .image _ r k => r * k
  | .label _ => 1

/-- Modelled from the spec: the image-file magic number, big-endian
0x00000803 (section 6). -/
def imageMagic : Nat := 2051

/-- Modelled from the spec: the label-file magic number, big-endian
0x00000801 (section 6). -/
def labelMagic : Nat := 2049

/-- Read a 4-byte big-endian unsigned integer from the front of a byte
stream, returning the value and the remaining bytes. -/
def readU32BE : List Nat → Option (Nat × List Nat)
  | b0 :: b1 :: b2 :: b3 :: rest =>
      some (((b0 * 256 + b1) * 256 + b2) * 256 + b3, rest)
  | _ => none

/-- Modelled from the spec: FileDecoder.readHeader of section 4.1 —
reads the fixed-size header from the decompressed byte stream, failing
with MalformedHeader if the magic number is unrecognized, the stream is
too short to hold the header, or the declared image geometry is zero.
On success the returned stream starts at record 0. -/
def readHeader (bytes : List Nat) : Except MNISTError (MNISTHeader × List Nat) :=
  match readU32BE bytes with
  | none => .error .MalformedHeader
  | some (m, rest) =>
    if m = imageMagic then
      match readU32BE rest with
      | none => .error .MalformedHeader
      | some (c, rest2) =>
        match readU32BE rest2 with
        | none => .error .MalformedHeader
        | some (r, rest3) =>
          match readU32BE rest3 with
          | none => .error .MalformedHeader
          | some (k, rest4) =>
            if r * k = 0 then .error .MalformedHeader
            else .ok (.image c r k, rest4)
    else if m = labelMagic then
      match readU32BE rest with
      | none => .error .MalformedHeader
      | some (c, rest2) => .ok (.label c, rest2)
    else .error .MalformedHeader

/-- Modelled from the spec: the Ready-state RecordIterator of section 4.2.
It borrows the decoded byte source: `fileBytes` is the full decompressed
file (kept so that restart can re-invoke the open-plus-readHeader path),
`header` is the validated header, `remaining` the bytes not yet consumed,
and `index` the number of records already produced. -/
structure RecordIterator where
  fileBytes : List Nat
  header : MNISTHeader
  remaining : List Nat
  index : Nat
deriving DecidableEq, Repr

/-- Modelled from the spec: the open-plus-readHeader path producing a
Ready iterator at index 0 (state machine of section 4.2). The byte list
is the decompressed stream of the source file; in this model iterators
are produced only through this function, so a header failure means no
record can ever be produced. -/
def openIterator (bytes : List Nat) : Except MNISTError RecordIterator :=
  match readHeader bytes with
  | .error e => .error e
  | .ok (h, rest) => .ok ⟨bytes, h, rest, 0⟩

/-- Modelled from the spec: RecordIterator.next of section 4.2 —
signals end of sequence (`none`) once recordCount records have been
produced, otherwise reads exactly one record worth of raw bytes, failing
with TruncatedRecord if fewer bytes than expected remain. -/
def RecordIterator.next (it : RecordIterator) :
    Except MNISTError (Option (List Nat) × RecordIterator) :=
  if it.header.recordCount ≤ it.index then .ok (none, it)
  else if it.remaining.length < it.header.recordSize then .error .TruncatedRecord
  else .ok (some (it.remaining.take it.header.recordSize),
    { it with
      remaining := it.remaining.drop it.header.recordSize
      index := it.index + 1 })

/-- Modelled from the spec: RecordIterator.restart of section 4.2 —
repositions to the first record by re-invoking the open-plus-readHeader
path on the same source. -/
def RecordIterator.restart (it : RecordIterator) : Except MNISTError RecordIterator :=
  openIterator it.fileBytes

/-- Fuelled loop driving `next` to exhaustion and collecting the produced
records in order. -/
def drainGo : Nat → RecordIterator → Except MNISTError (List (List Nat))
  | 0, _ => .ok []
  | fuel + 1, it =>
    match it.next with
    | .error e => .error e
    | .ok (none, _) => .ok []
    | .ok (some r, it2) =>
      match drainGo fuel it2 with
      | .error e => .error e
      | .ok rs => .ok (r :: rs)

/-- Iterate `next` to exhaustion from the current state, collecting all
records produced. The fuel `recordCount - index` is exact: each
successful `next` call advances `index` by one and `next` signals end of
sequence as soon as `index` reaches `recordCount`. -/
def RecordIterator.drain (it : RecordIterator) : Except MNISTError (List (List Nat)) :=
  drainGo (it.header.recordCount - it.index) it

/-- Call `next` a given number of times, discarding the records: the
iterator state after some amount of iteration. -/
def advanceIter : Nat → RecordIterator → Except MNISTError RecordIterator
  | 0, it => .ok it
  | j + 1, it =>
    match it.next with
    | .error e => .error e
    | .ok (_, it2) => advanceIter j it2

/-- Restart the iterator and iterate the result to exhaustion. -/
def restartAndDrain (it : RecordIterator) : Except MNISTError (List (List Nat)) :=
  match it.restart with
  | .error e => .error e
  | .ok it2 => it2.drain

/-- Big-endian 4-byte encoding of an unsigned integer. -/
def u32be (n : Nat) : List Nat :=
  [n / 16777216 % 256, n / 65536 % 256, n / 256 % 256, n % 256]

/-- Modelled from the spec: the bit-exact image file layout of section 6 —
magic 0x00000803, record count, rows, cols, then the pixel bytes. -/
def imageFile (c r k : Nat) (pixels : List Nat) : List Nat :=
  u32be imageMagic ++ u32be c ++ u32be r ++ u32be k ++ pixels

/-- Modelled from the spec: the bit-exact label file layout of section 6 —
magic 0x00000801, record count, then one byte per label. -/
def labelFile (c : Nat) (ls : List Nat) : List Nat :=
  u32be labelMagic ++ u32be c ++ ls

/-- A well-formed input file in the sense of section 6: an image file
whose declared geometry is positive and whose pixel data has exactly
recordCount times rows times cols bytes, or a label file with exactly
recordCount label bytes. Declared counts fit in an unsigned 32-bit
field. -/
def WellFormedFile (bytes : List Nat) : Prop :=
  (∃ c r k pixels, c < 4294967296 ∧ r < 4294967296 ∧ k < 4294967296 ∧
    0 < r * k ∧ pixels.length = c * (r * k) ∧ bytes = imageFile c r k pixels) ∨
  (∃ c ls, c < 4294967296 ∧ ls.length = c ∧ bytes = labelFile c ls)

/-- A well-formed file truncated by one byte before its last record
boundary: the layout of a well-formed file with at least one record,
with the final byte missing. -/
def OneByteTruncatedFile (bytes : List Nat) : Prop :=
  (∃ c r k pixels, c < 4294967296 ∧ r < 4294967296 ∧ k < 4294967296 ∧
    0 < c ∧ 0 < r * k ∧ pixels.length = c * (r * k) - 1 ∧
    bytes = imageFile c r k pixels) ∨
  (∃ c ls, c < 4294967296 ∧ 0 < c ∧ ls.length = c - 1 ∧ bytes = labelFile c ls)

lemma readU32BE_u32be (n : Nat) (rest : List Nat) (h : n < 4294967296) :
    readU32BE (u32be n ++ rest) = some (n, rest) := by
  have key : ((n / 16777216 % 256 * 256 + n / 65536 % 256) * 256 +
      n / 256 % 256) * 256 + n % 256 = n := by omega
  simp [u32be, readU32BE, key]

lemma readHeader_imageFile (c r k : Nat) (pixels : List Nat)
    (hc : c < 4294967296) (hr : r < 4294967296) (hk : k < 4294967296)
    (hdim : 0 < r * k) :
    readHeader (imageFile c r k pixels) = .ok (.image c r k, pixels) := by
  have hne : ¬ r * k = 0 := Nat.pos_iff_ne_zero.mp hdim
  simp only [imageFile, List.append_assoc]
  rw [readHeader, readU32BE_u32be _ _ (by decide : imageMagic < 4294967296)]
  simp [readU32BE_u32be _ _ hc, readU32BE_u32be _ _ hr, readU32BE_u32be _ _ hk, hne]

lemma readHeader_labelFile (c : Nat) (ls : List Nat) (hc : c < 4294967296) :
    readHeader (labelFile c ls) = .ok (.label c, ls) := by
  simp only [labelFile, List.append_assoc]
  rw [readHeader, readU32BE_u32be _ _ (by decide : labelMagic < 4294967296)]
  simp [readU32BE_u32be _ _ hc, imageMagic, labelMagic]

lemma drainGo_complete (h : MNISTHeader) :
    ∀ (n idx : Nat) (fb rem : List Nat), h.recordCount = idx + n →
    rem.length = n * h.recordSize →
    ∃ rs, drainGo n ⟨fb, h, rem, idx⟩ = .ok rs ∧ rs.length = n ∧
      ∀ rec ∈ rs, rec.length = h.recordSize := by
  intro n
  induction n with
  | zero =>
    intro idx fb rem hcnt hlen
    exact ⟨[], rfl, rfl, by simp⟩
  | succ n ih =>
    intro idx fb rem hcnt hlen
    have hidx : ¬ h.recordCount ≤ idx := by omega
    have hsz_le : h.recordSize ≤ rem.length := by
      rw [hlen]
      exact Nat.le_mul_of_pos_left _ (Nat.succ_pos n)
    have hnext : RecordIterator.next ⟨fb, h, rem, idx⟩ =
        .ok (some (rem.take h.recordSize),
          ⟨fb, h, rem.drop h.recordSize, idx + 1⟩) := by
      simp [RecordIterator.next, hidx, Nat.not_lt.mpr hsz_le]
    obtain ⟨rs, hrs, hlen2, hall⟩ := ih (idx + 1) fb (rem.drop h.recordSize)
      (by omega)
      (by rw [List.length_drop, hlen, Nat.succ_mul, Nat.add_sub_cancel])
    refine ⟨rem.take h.recordSize :: rs, ?_, ?_, ?_⟩
    · simp [drainGo, hnext, hrs]
    · simp [hlen2]
    · intro rec hrec
      rcases List.mem_cons.mp hrec with h1 | h2
      · rw [h1, List.length_take, Nat.min_eq_left hsz_le]
      · exact hall rec h2

lemma next_preserves (it it2 : RecordIterator) (o : Option (List Nat))
    (h : it.next = .ok (o, it2)) :
    it2.fileBytes = it.fileBytes ∧ it2.header = it.header := by
  unfold RecordIterator.next at h
  split at h
  · simp at h
    rw [h.2]; exact ⟨rfl, rfl⟩
  · split at h
    · simp at h
    · simp at h
      rw [← h.2]; exact ⟨rfl, rfl⟩

lemma advanceIter_preserves :
    ∀ (j : Nat) (it it2 : RecordIterator), advanceIter j it = .ok it2 →
    it2.fileBytes = it.fileBytes ∧ it2.header = it.header := by
  intro j
  induction j with
  | zero =>
    intro it it2 h
    simp [advanceIter] at h
    rw [h]; exact ⟨rfl, rfl⟩
  | succ j ih =>
    intro it it2 h
    unfold advanceIter at h
    rcases hE : it.next with e | pr
    · rw [hE] at h; simp at h
    · rcases pr with ⟨o, itm⟩
      rw [hE] at h
      simp at h
      obtain ⟨e1, e2⟩ := ih itm it2 h
      obtain ⟨f1, f2⟩ := next_preserves it itm o hE
      exact ⟨e1.trans f1, e2.trans f2⟩

lemma advanceIter_ok (h : MNISTHeader) :
    ∀ (j idx : Nat) (fb rem : List Nat), idx + j ≤ h.recordCount →
    j * h.recordSize ≤ rem.length →
    advanceIter j ⟨fb, h, rem, idx⟩ =
      .ok ⟨fb, h, rem.drop (j * h.recordSize), idx + j⟩ := by
  intro j
  induction j with
  | zero =>
    intro idx fb rem hcnt hlen
    simp [advanceIter]
  | succ j ih =>
    intro idx fb rem hcnt hlen
    have hsz_le : h.recordSize ≤ rem.length := by
      refine le_trans ?_ hlen
      exact Nat.le_mul_of_pos_left _ (Nat.succ_pos j)
    have hidx : ¬ h.recordCount ≤ idx := by omega
    have hnext : RecordIterator.next ⟨fb, h, rem, idx⟩ =
        .ok (some (rem.take h.recordSize),
          ⟨fb, h, rem.drop h.recordSize, idx + 1⟩) := by
      simp [RecordIterator.next, hidx, Nat.not_lt.mpr hsz_le]
    have hrec : advanceIter (j + 1) ⟨fb, h, rem, idx⟩ =
        advanceIter j ⟨fb, h, rem.drop h.recordSize, idx + 1⟩ := by
      rw [advanceIter, hnext]
    rw [hrec, ih (idx + 1) fb (rem.drop h.recordSize)
      (by omega)
      (by rw [List.length_drop]
          rw [Nat.succ_mul] at hlen
          omega)]
    rw [List.drop_drop]
    have e1 : h.recordSize + j * h.recordSize = (j + 1) * h.recordSize := by
      rw [Nat.succ_mul, Nat.add_comm]
    have e2 : idx + 1 + j = idx + (j + 1) := by omega
    rw [e1, e2]

lemma openIterator_wellFormed (bytes : List Nat) (hwf : WellFormedFile bytes) :
    ∃ it0 rs, openIterator bytes = .ok it0 ∧ it0.fileBytes = bytes ∧
      it0.index = 0 ∧ it0.drain = .ok rs := by
  rcases hwf with ⟨c, r, k, pixels, hc, hr, hk, hdim, hlen, hbytes⟩ |
    ⟨c, ls, hc, hlen, hbytes⟩
  · subst hbytes
    have hread := readHeader_imageFile c r k pixels hc hr hk hdim
    obtain ⟨rs, h1, h2, h3⟩ := drainGo_complete (.image c r k) c 0
      (imageFile c r k pixels) pixels
      (by simp [MNISTHeader.recordCount])
      (by simpa [MNISTHeader.recordSize] using hlen)
    refine ⟨⟨imageFile c r k pixels, .image c r k, pixels, 0⟩, rs, ?_, rfl, rfl, ?_⟩
    · simp [openIterator, hread]
    · simpa [RecordIterator.drain, MNISTHeader.recordCount] using h1
  · subst hbytes
    have hread := readHeader_labelFile c ls hc
    obtain ⟨rs, h1, h2, h3⟩ := drainGo_complete (.label c) c 0
      (labelFile c ls) ls
      (by simp [MNISTHeader.recordCount])
      (by simp [MNISTHeader.recordSize, hlen])
    refine ⟨⟨labelFile c ls, .label c, ls, 0⟩, rs, ?_, rfl, rfl, ?_⟩
    · simp [openIterator, hread]
    · simpa [RecordIterator.drain, MNISTHeader.recordCount] using h1

/-- C5: for every well-formed MNIST image file (valid magic, record
count, rows, cols, and recordCount times rows times cols pixel bytes),
iterating the decoder to exhaustion produces exactly recordCount
records, each consisting of exactly rows times cols bytes. -/
theorem claim_C5_image_decode_complete (c r k : Nat) (pixels : List Nat)
    (hc : c < 4294967296) (hr : r < 4294967296) (hk : k < 4294967296)
    (hdim : 0 < r * k) (hlen : pixels.length = c * (r * k)) :
    ∃ it rs, openIterator (imageFile c r k pixels) = .ok it ∧
      it.drain = .ok rs ∧ rs.length = c ∧ ∀ rec ∈ rs, rec.length = r * k := by
  have hread := readHeader_imageFile c r k pixels hc hr hk hdim
  obtain ⟨rs, h1, h2, h3⟩ := drainGo_complete (.image c r k) c 0
    (imageFile c r k pixels) pixels
    (by simp [MNISTHeader.recordCount])
    (by simpa [MNISTHeader.recordSize] using hlen)
  refine ⟨⟨imageFile c r k pixels, .image c r k, pixels, 0⟩, rs, ?_, ?_, h2, ?_⟩
  · simp [openIterator, hread]
  · simpa [RecordIterator.drain, MNISTHeader.recordCount] using h1
  · intro rec hrec
    simpa [MNISTHeader.recordSize] using h3 rec hrec

/-- C5 witness: a concrete well-formed image file with one 2-by-2
record. -/
theorem claim_C5_image_decode_complete_witness :
    ∃ it rs, openIterator (imageFile 1 2 2 [16, 32, 48, 64]) = .ok it ∧
      it.drain = .ok rs ∧ rs.length = 1 ∧ ∀ rec ∈ rs, rec.length = 2 * 2 :=
  claim_C5_image_decode_complete 1 2 2 [16, 32, 48, 64]
    (by decide) (by decide) (by decide) (by decide) (by decide)

/-- C6: for every well-formed input file, calling restart after any
amount of iteration and then iterating to exhaustion yields a record
sequence byte-for-byte identical to the one produced by the first full
iteration. -/
theorem claim_C6_restart_reiterate (bytes : List Nat) (it0 it : RecordIterator)
    (j : Nat) (hwf : WellFormedFile bytes)
    (hopen : openIterator bytes = .ok it0)
    (hadv : advanceIter j it0 = .ok it) :
    ∃ rs, it0.drain = .ok rs ∧ restartAndDrain it = .ok rs := by
  obtain ⟨it0w, rs, hopenw, hfb, hidx, hdrain⟩ := openIterator_wellFormed bytes hwf
  have heq : it0 = it0w := Except.ok.inj (hopen.symm.trans hopenw)
  rw [← heq] at hfb hdrain
  have hpres := advanceIter_preserves j it0 it hadv
  have hres : it.restart = .ok it0 := by
    unfold RecordIterator.restart
    rw [hpres.1, hfb, hopen]
  refine ⟨rs, hdrain, ?_⟩
  simp [restartAndDrain, hres, hdrain]

/-- C6 witness: a concrete well-formed label file with three records,
restarting after one record has been consumed. -/
theorem claim_C6_restart_reiterate_witness :
    ∃ rs, RecordIterator.drain ⟨labelFile 3 [5, 0, 9], .label 3, [5, 0, 9], 0⟩ =
        .ok rs ∧
      restartAndDrain ⟨labelFile 3 [5, 0, 9], .label 3, [0, 9], 1⟩ = .ok rs :=
  claim_C6_restart_reiterate (labelFile 3 [5, 0, 9])
    ⟨labelFile 3 [5, 0, 9], .label 3, [5, 0, 9], 0⟩
    ⟨labelFile 3 [5, 0, 9], .label 3, [0, 9], 1⟩ 1
    (Or.inr ⟨3, [5, 0, 9], by decide, rfl, rfl⟩) rfl rfl

/-- C7: for every well-formed file truncated by one byte before its last
record boundary, the final call to next fails with TruncatedRecord
rather than returning a short or partial record. -/
theorem claim_C7_truncation_is_error (bytes : List Nat)
    (htr : OneByteTruncatedFile bytes) :
    ∃ it0 it, openIterator bytes = .ok it0 ∧
      advanceIter (it0.header.recordCount - 1) it0 = .ok it ∧
      it.next = .error .TruncatedRecord := by
  rcases htr with ⟨c, r, k, pixels, hc, hr, hk, hcpos, hdim, hlen, hbytes⟩ |
    ⟨c, ls, hc, hcpos, hlen, hbytes⟩
  · subst hbytes
    have hread := readHeader_imageFile c r k pixels hc hr hk hdim
    have hopen : openIterator (imageFile c r k pixels) =
        .ok ⟨imageFile c r k pixels, .image c r k, pixels, 0⟩ := by
      simp [openIterator, hread]
    have hadvlen : (c - 1) * (MNISTHeader.image c r k).recordSize ≤ pixels.length := by
      simp only [MNISTHeader.recordSize]
      rw [hlen, Nat.sub_mul, Nat.one_mul]
      exact Nat.sub_le_sub_left hdim _
    have hadv := advanceIter_ok (.image c r k) (c - 1) 0
      (imageFile c r k pixels) pixels
      (by simp only [MNISTHeader.recordCount]; omega) hadvlen
    refine ⟨⟨imageFile c r k pixels, .image c r k, pixels, 0⟩,
      ⟨imageFile c r k pixels, .image c r k,
        pixels.drop ((c - 1) * (MNISTHeader.image c r k).recordSize), 0 + (c - 1)⟩,
      hopen, hadv, ?_⟩
    have hidx2 : ¬ (MNISTHeader.image c r k).recordCount ≤ c - 1 := by
      simp only [MNISTHeader.recordCount]; omega
    have hlt : pixels.length - (c - 1) * (MNISTHeader.image c r k).recordSize <
        (MNISTHeader.image c r k).recordSize := by
      rw [hlen]
      simp only [MNISTHeader.recordSize]
      rw [Nat.sub_mul, Nat.one_mul]
      have hple : r * k ≤ c * (r * k) := Nat.le_mul_of_pos_left _ hcpos
      revert hdim hple
      generalize c * (r * k) = q
      generalize r * k = p
      intro hdim hple
      omega
    simp [RecordIterator.next, hidx2, hlt]
  · subst hbytes
    have hread := readHeader_labelFile c ls hc
    have hopen : openIterator (labelFile c ls) =
        .ok ⟨labelFile c ls, .label c, ls, 0⟩ := by
      simp [openIterator, hread]
    have hadv := advanceIter_ok (.label c) (c - 1) 0 (labelFile c ls) ls
      (by simp only [MNISTHeader.recordCount]; omega)
      (by simp only [MNISTHeader.recordSize]; rw [Nat.mul_one, hlen])
    refine ⟨⟨labelFile c ls, .label c, ls, 0⟩,
      ⟨labelFile c ls, .label c,
        ls.drop ((c - 1) * (MNISTHeader.label c).recordSize), 0 + (c - 1)⟩,
      hopen, hadv, ?_⟩
    have hidx2 : ¬ (MNISTHeader.label c).recordCount ≤ c - 1 := by
      simp only [MNISTHeader.recordCount]; omega
    have hlt : ls.length - (c - 1) * (MNISTHeader.label c).recordSize <
        (MNISTHeader.label c).recordSize := by
      rw [hlen]
      simp only [MNISTHeader.recordSize]
      omega
    simp [RecordIterator.next, hidx2, hlt]

/-- C7 witness: a concrete label file declaring one record but holding
no label byte — a well-formed one-record file truncated by one byte. -/
theorem claim_C7_truncation_is_error_witness :
    ∃ it0 it, openIterator (labelFile 1 []) = .ok it0 ∧
      advanceIter (it0.header.recordCount - 1) it0 = .ok it ∧
      it.next = .error .TruncatedRecord :=
  claim_C7_truncation_is_error (labelFile 1 [])
    (Or.inr ⟨1, [], by decide, by decide, rfl, rfl⟩)

/-- C8: for every input whose first 4 bytes are not one of the two
recognized magic numbers, readHeader fails with MalformedHeader, and the
open-plus-readHeader path never yields an iterator, so no record is ever
produced by any subsequent call to next. -/
theorem claim_C8_bad_magic (b0 b1 b2 b3 : Nat) (rest : List Nat)
    (h1 : ((b0 * 256 + b1) * 256 + b2) * 256 + b3 ≠ imageMagic)
    (h2 : ((b0 * 256 + b1) * 256 + b2) * 256 + b3 ≠ labelMagic) :
    readHeader (b0 :: b1 :: b2 :: b3 :: rest) = .error .MalformedHeader ∧
    openIterator (b0 :: b1 :: b2 :: b3 :: rest) = .error .MalformedHeader := by
  have hrd : readHeader (b0 :: b1 :: b2 :: b3 :: rest) = .error .MalformedHeader := by
    simp [readHeader, readU32BE, h1, h2]
  exact ⟨hrd, by simp [openIterator, hrd]⟩

/-- C8 witness: a stream starting with 0xFF000000, which is neither
magic number. -/
theorem claim_C8_bad_magic_witness :
    readHeader (255 :: 0 :: 0 :: 0 :: []) = .error .MalformedHeader ∧
    openIterator (255 :: 0 :: 0 :: 0 :: []) = .error .MalformedHeader :=
  claim_C8_bad_magic 255 0 0 0 [] (by decide) (by decide)

end MnistDecoder

namespace MnistOps

/-- C1: the shape function registered for "MNISTImageDataset" declares its
single output (output 0) to have rank 2 with both dimensions unknown, and
the shape function registered for "MNISTLabelDataset" declares its single
output to have rank 0 (a scalar shape), for every shape-inference context. -/
theorem claim_C1_shape_functions (c : InferenceContext) :
    (MNISTImageDataset.shape_fn c).1.outputs 0 = some (Shape.mk [none, none]) ∧
    (MNISTLabelDataset.shape_fn c).1.outputs 0 = some (Shape.mk []) ∧
    Shape.rank (Shape.mk [none, none]) = 2 ∧
    Shape.rank (Shape.mk []) = 0 :=
  ⟨rfl, rfl, rfl, rfl⟩

/-- C2: the fragment registers exactly two operations, named
"MNISTImageDataset" and "MNISTLabelDataset", each with a declared
input/output signature and a shape function that sets an output shape. -/
theorem claim_C2_two_ops_registered :
    registeredOps.length = 2 ∧
    registeredOps.map OpDef.name = ["MNISTImageDataset", "MNISTLabelDataset"] ∧
    MNISTImageDataset.input_args.length = 2 ∧
    MNISTImageDataset.output_args.length = 1 ∧
    MNISTLabelDataset.input_args.length = 2 ∧
    MNISTLabelDataset.output_args.length = 1 ∧
    (∀ c, ((MNISTImageDataset.shape_fn c).1.outputs 0).isSome = true) ∧
    (∀ c, ((MNISTLabelDataset.shape_fn c).1.outputs 0).isSome = true) :=
  ⟨rfl, by decide, by decide, by decide, by decide, by decide,
   fun c => rfl, fun c => rfl⟩

/-- C3: each registered op takes exactly two inputs, a string input named
"filenames" followed by a string input named "compression_type", and
produces exactly one output, named "handle", of type variant. -/
theorem claim_C3_signatures :
    MNISTImageDataset.input_args =
      [⟨"filenames", "string"⟩, ⟨"compression_type", "string"⟩] ∧
    MNISTImageDataset.output_args = [⟨"handle", "variant"⟩] ∧
    MNISTLabelDataset.input_args =
      [⟨"filenames", "string"⟩, ⟨"compression_type", "string"⟩] ∧
    MNISTLabelDataset.output_args = [⟨"handle", "variant"⟩] :=
  ⟨by decide, by decide, by decide, by decide⟩

/-- C4: both registered ops carry the statefulness mark set by the
`.SetIsStateful()` builder call. -/
theorem claim_C4_stateful :
    MNISTImageDataset.is_stateful = true ∧ MNISTLabelDataset.is_stateful = true :=
  ⟨rfl, rfl⟩

/-- C9: the shape-inference functions of both registered ops
unconditionally return a success status, for any inference context. -/
theorem claim_C9_shape_fn_always_ok (c : InferenceContext) :
    (MNISTImageDataset.shape_fn c).2 = Status.OK ∧
    (MNISTLabelDataset.shape_fn c).2 = Status.OK :=
  ⟨rfl, rfl⟩

/-- C10: each shape function is deterministic and independent of its
inputs: for any two inference contexts it sets the same output shape,
namely rank-2 unknown-by-unknown for the image op and scalar for the
label op. -/
theorem claim_C10_shape_fn_input_independent (c1 c2 : InferenceContext) :
    (MNISTImageDataset.shape_fn c1).1.outputs 0 =
      (MNISTImageDataset.shape_fn c2).1.outputs 0 ∧
    (MNISTImageDataset.shape_fn c1).1.outputs 0 = some (Shape.mk [none, none]) ∧
    (MNISTLabelDataset.shape_fn c1).1.outputs 0 =
      (MNISTLabelDataset.shape_fn c2).1.outputs 0 ∧
    (MNISTLabelDataset.shape_fn c1).1.outputs 0 = some (Shape.mk []) :=
  ⟨rfl, rfl, rfl, rfl⟩

/-- C1 witness: the shape functions evaluated on a concrete inference
context with no inputs and no output shapes set. -/
theorem claim_C1_shape_functions_witness :
    (MNISTImageDataset.shape_fn ⟨[], fun _ => none⟩).1.outputs 0 =
      some (Shape.mk [none, none]) ∧
    (MNISTLabelDataset.shape_fn ⟨[], fun _ => none⟩).1.outputs 0 =
      some (Shape.mk []) ∧
    Shape.rank (Shape.mk [none, none]) = 2 ∧
    Shape.rank (Shape.mk []) = 0 :=
  claim_C1_shape_functions ⟨[], fun _ => none⟩

/-- C9 witness: the success status evaluated on a concrete inference
context. -/
theorem claim_C9_shape_fn_always_ok_witness :
    (MNISTImageDataset.shape_fn ⟨[], fun _ => none⟩).2 = Status.OK ∧
    (MNISTLabelDataset.shape_fn ⟨[], fun _ => none⟩).2 = Status.OK :=
  claim_C9_shape_fn_always_ok ⟨[], fun _ => none⟩

/-- C10 witness: input independence evaluated on two distinct concrete
inference contexts. -/
theorem claim_C10_shape_fn_input_independent_witness :
    (MNISTImageDataset.shape_fn ⟨[], fun _ => none⟩).1.outputs 0 =
      (MNISTImageDataset.shape_fn ⟨[Shape.mk [some 7]], fun _ => some (Shape.mk [])⟩).1.outputs 0 ∧
    (MNISTImageDataset.shape_fn ⟨[], fun _ => none⟩).1.outputs 0 =
      some (Shape.mk [none, none]) ∧
    (MNISTLabelDataset.shape_fn ⟨[], fun _ => none⟩).1.outputs 0 =
      (MNISTLabelDataset.shape_fn ⟨[Shape.mk [some 7]], fun _ => some (Shape.mk [])⟩).1.outputs 0 ∧
    (MNISTLabelDataset.shape_fn ⟨[], fun _ => none⟩).1.outputs 0 =
      some (Shape.mk []) :=
  claim_C10_shape_fn_input_independent ⟨[], fun _ => none⟩
    ⟨[Shape.mk [some 7]], fun _ => some (Shape.mk [])⟩

end MnistOps
